import Mathlib

/-!
Shallow embedding of the conversation/message coordination engine of the
messaging backend (src/backend/index.js) and proofs about its behavior.

Modelling conventions:
- Mongo ObjectId values are modelled as natural numbers.  ObjectIds are
  fixed-length hex strings, so the default JavaScript sort (lexicographic on
  the string form) coincides with numeric order on the model.
- Dates are modelled as natural-number timestamps.
- A Mongo collection is a list of records; insertion appends, and queries by
  id return the first record whose id matches (ids are unique in practice,
  captured by the well-formedness predicate WF below).
- The Mongo Map field unreadCount is modelled as an association list; a
  missing key reads as 0, matching the JavaScript access pattern
  unreadCount.get(uid) or-else 0 and the Mongo inc/set update operators.
- The schema fields from/to of a message are named sender/receiver here
  (from is a Lean keyword; the source itself aliases them through the
  virtuals sender/receiver).
-/

/-- Message delivery status, the enum of the message schema:
sent, delivered, read. -/
inductive Status
  | sent
  | delivered
  | read
deriving DecidableEq, Repr

/-- Numeric rank of a status in the forward order sent, delivered, read. -/
def statusRank : Status → Nat
  | .sent => 0
  | .delivered => 1
  | .read => 2

/-- Message type, the enum of the message schema: text, image, file.
The send handlers also test for a multi_image type, but the schema enum does
not admit it, so a multi_image create would be rejected by schema validation;
the embedding therefore carries only the three schema values. -/
inductive MsgType
  | text
  | image
  | file
deriving DecidableEq, Repr

/-- File attachment descriptor of the message schema. -/
structure FileAttachment where
  fileName : String
  filePath : String
  fileSize : Nat
  mimeType : String
deriving DecidableEq, Repr

abbrev UserId := Nat
abbrev ConvId := Nat
abbrev MsgId := Nat
abbrev Time := Nat

/-- User record (the fields the core reads: id, name, email). -/
structure User where
  id : UserId
  name : String
  email : String
deriving DecidableEq, Repr

/-- Denormalized last-message snapshot stored on a conversation.
The schema field from is named sender here. -/
structure LastMessage where
  text : String
  sender : Option UserId
  timestamp : Time
deriving DecidableEq, Repr

/-- Conversation record of the conversation schema.  unreadCount is the Mongo
Map from participant id to counter, as an association list. -/
structure Conversation where
  id : ConvId
  participants : List UserId
  lastMessage : LastMessage
  unreadCount : List (UserId × Nat)
  isGroup : Bool := false
deriving DecidableEq, Repr

/-- Message record of the message schema. -/
structure Message where
  id : MsgId
  conversationId : ConvId
  sender : UserId
  receiver : UserId
  text : String
  status : Status
  seenAt : Option Time
  messageType : MsgType
  fileAttachment : Option FileAttachment
  createdAt : Time
deriving DecidableEq, Repr

/-- The persistent store: the users, conversations and messages collections.
nextConvId / nextMsgId model ObjectId allocation for inserted records. -/
structure DB where
  users : List User
  conversations : List Conversation
  messages : List Message
  nextConvId : Nat
  nextMsgId : Nat
deriving DecidableEq, Repr

/-- Read a counter out of an unreadCount map; a missing key is 0, as in
unreadCount.get(uid) or-else 0. -/
def getUnread (l : List (UserId × Nat)) (u : UserId) : Nat :=
  match l.find? (fun p => p.1 == u) with
  | some p => p.2
  | none => 0

/-- Mongo set of one key of the unreadCount map: update the entry if the key
is present, otherwise create it. -/
def setUnread (l : List (UserId × Nat)) (u : UserId) (n : Nat) : List (UserId × Nat) :=
  if l.any (fun p => p.1 == u) then
    l.map (fun p => if p.1 == u then (u, n) else p)
  else
    l ++ [(u, n)]

/-- Mongo inc of one key of the unreadCount map: a missing key is treated
as 0 and becomes 1. -/
def incUnread (l : List (UserId × Nat)) (u : UserId) : List (UserId × Nat) :=
  setUnread l u (getUnread l u + 1)

/-- User.findById: first user whose id matches. -/
def findUserById (db : DB) (uid : UserId) : Option User :=
  db.users.find? (fun u => u.id == uid)

/-- User.findOne on email: the handler lowercases the query string and the
schema lowercases stored emails. -/
def findUserByEmail (db : DB) (e : String) : Option User :=
  db.users.find? (fun u => u.email == e.toLower)

/-- Conversation.findById. -/
def findConvById (db : DB) (cid : ConvId) : Option Conversation :=
  db.conversations.find? (fun c => c.id == cid)

/-- Message.findById. -/
def findMsg (db : DB) (mid : MsgId) : Option Message :=
  db.messages.find? (fun m => m.id == mid)

/-- Conversation.findByIdAndUpdate: rewrite the conversation whose id
matches, leaving every other record in place. -/
def updateConvById (db : DB) (cid : ConvId) (f : Conversation → Conversation) : DB :=
  { db with conversations := db.conversations.map (fun c => if c.id == cid then f c else c) }

/-- Message save after mutating the document found by id. -/
def updateMsgById (db : DB) (mid : MsgId) (f : Message → Message) : DB :=
  { db with messages := db.messages.map (fun m => if m.id == mid then f m else m) }

/-- The sort call participantIds.sort() that canonicalizes a participant
pair (ascending, the ObjectId order). -/
def jsSort (l : List UserId) : List UserId :=
  l.insertionSort (fun a b => a ≤ b)

/-- The Mongo query on participants used by every conversation-pair lookup:
all of the (sorted) queried ids occur in the participants array, and the
array has exactly the queried size. -/
def matchesParticipants (c : Conversation) (sorted : List UserId) : Bool :=
  sorted.all (fun p => c.participants.contains p) && c.participants.length == sorted.length

/-- The findOne step of getOrCreateConversation. -/
def gocFind (db : DB) (sorted : List UserId) : Option Conversation :=
  db.conversations.find? (fun c => matchesParticipants c sorted)

/-- The Conversation.create step of getOrCreateConversation: a fresh record
with the sorted participants, an empty lastMessage snapshot and an empty
unreadCount map.  The startup code drops the unique index participants_1 and
the schema declares only non-unique indexes on participants, so this insert
is never rejected for a duplicate pair: the catch branch for the duplicate
key error 11000 in the source can never run, and the insert always
succeeds. -/
def gocInsert (db : DB) (sorted : List UserId) (t : Time) : Conversation × DB :=
  let c : Conversation :=
    { id := db.nextConvId
      participants := sorted
      lastMessage := { text := "", sender := none, timestamp := t }
      unreadCount := [] }
  (c, { db with conversations := db.conversations ++ [c], nextConvId := db.nextConvId + 1 })

/-- getOrCreateConversation: sort the pair, look for an existing
conversation with exactly those participants, and insert a fresh one if the
lookup found nothing. -/
def getOrCreateConversation (db : DB) (participantIds : List UserId) (t : Time) :
    Conversation × DB :=
  match gocFind db (jsSort participantIds) with
  | some c => (c, db)
  | none => gocInsert db (jsSort participantIds) t

/-- Unread counter of one user in one conversation as the API reads it:
0 when the conversation or the key is absent. -/
def unreadIn (db : DB) (cid : ConvId) (u : UserId) : Nat :=
  match findConvById db cid with
  | some c => getUnread c.unreadCount u
  | none => 0

/-- Number of stored conversations whose participant set matches the sorted
form of the given pair. -/
def countPairConvs (db : DB) (pair : List UserId) : Nat :=
  (db.conversations.filter (fun c => matchesParticipants c (jsSort pair))).length

/-- Well-formedness of a store: record ids are pairwise distinct and below
the allocation counters, and every message points at a stored
conversation. -/
def WF (db : DB) : Prop :=
  db.conversations.Pairwise (fun a b => a.id ≠ b.id) ∧
  (∀ c ∈ db.conversations, c.id < db.nextConvId) ∧
  db.messages.Pairwise (fun a b => a.id ≠ b.id) ∧
  (∀ m ∈ db.messages, m.id < db.nextMsgId) ∧
  (∀ m ∈ db.messages, ∃ c ∈ db.conversations, m.conversationId = c.id)

/-- Request body of a send (POST /api/messages and the socket message:send
handler take the same shape). -/
structure SendReq where
  toId : Option UserId := none
  toEmail : Option String := none
  text : Option String := none
  messageType : Option MsgType := none
  fileAttachment : Option FileAttachment := none
deriving DecidableEq, Repr

/-- Outcome of a send as reported to the caller: an HTTP-style error
(status code and body), or the created message and its conversation id. -/
inductive SendOutcome
  | error (status : Nat) (msg : String)
  | created (message : Message) (conversationId : ConvId)
deriving DecidableEq, Repr

/-- JavaScript falsiness of the text field: undefined or the empty
string. -/
def jsFalsyText (t : Option String) : Bool :=
  match t with
  | none => true
  | some s => s == ""

/-- JavaScript trim on the message text: strip leading and trailing
whitespace.  Written over the character list so that it reduces by
structural recursion. -/
def jsTrim (s : String) : String :=
  String.mk (((s.data.dropWhile Char.isWhitespace).reverse.dropWhile
    Char.isWhitespace).reverse)

/-- Receiver resolution shared by the handlers: by id when toId is given,
else by email, else unresolved. -/
def resolvePeer (db : DB) (toId : Option UserId) (toEmail : Option String) : Option User :=
  match toId with
  | some tid => findUserById db tid
  | none =>
    match toEmail with
    | some e => findUserByEmail db e
    | none => none

/-- Validation prefix of the send pipeline, in source order: body present,
sender exists, receiver resolvable (by id, else by email), sender distinct
from receiver.  No store access mutates anything here. -/
def sendValidate (db : DB) (sub : UserId) (req : SendReq) :
    Except (Nat × String) (User × User) :=
  if jsFalsyText req.text && req.fileAttachment.isNone then
    .error (400, "Text or file required")
  else
    match findUserById db sub with
    | none => .error (401, "Sender not found")
    | some sender =>
      match resolvePeer db req.toId req.toEmail with
      | none => .error (404, "Peer not found or not registered")
      | some peer =>
        if sender.id == peer.id then
          .error (400, "Cannot send message to yourself")
        else
          .ok (sender, peer)

/-- Preview string written into the denormalized lastMessage snapshot,
a pure function of message type and attachment metadata. -/
def lastMessagePreview (m : Message) : String :=
  match m.messageType with
  | .image => "Photo"
  | .file =>
    match m.fileAttachment with
    | some a => "File " ++ a.fileName
    | none => "File"
  | .text => m.text

/-- Persistence suffix of the send pipeline: get-or-create the
conversation, create the message (schema validation caps text at 2000
characters; a longer text makes the create throw, surfaced as a 500 after
the conversation step already ran), update the lastMessage snapshot, and
increment the receiver unread counter. -/
def sendPersist (db : DB) (sender peer : User) (req : SendReq) (t : Time) :
    SendOutcome × DB :=
  let conv := (getOrCreateConversation db [sender.id, peer.id] t).1
  let db1 := (getOrCreateConversation db [sender.id, peer.id] t).2
  let msgText := jsTrim (req.text.getD "")
  if msgText.length > 2000 then
    (.error 500 "Server error", db1)
  else
    let msg : Message :=
      { id := db1.nextMsgId
        conversationId := conv.id
        sender := sender.id
        receiver := peer.id
        text := msgText
        status := .sent
        seenAt := none
        messageType := req.messageType.getD .text
        fileAttachment := req.fileAttachment
        createdAt := t }
    let db2 := { db1 with messages := db1.messages ++ [msg], nextMsgId := db1.nextMsgId + 1 }
    let db3 := updateConvById db2 conv.id (fun c =>
      { c with lastMessage :=
          { text := lastMessagePreview msg, sender := some msg.sender, timestamp := msg.createdAt } })
    let db4 := updateConvById db3 conv.id (fun c =>
      { c with unreadCount := incUnread c.unreadCount peer.id })
    (.created msg conv.id, db4)

/-- The send pipeline of POST /api/messages.  The socket message:send
handler runs the identical validation and persistence sequence (only one
error string differs); the embedding covers both transports. -/
def sendMessage (db : DB) (sub : UserId) (req : SendReq) (t : Time) :
    SendOutcome × DB :=
  match sendValidate db sub req with
  | .error es => (.error es.1 es.2, db)
  | .ok sp => sendPersist db sp.1 sp.2 req t

/-- Query of GET /api/messages. -/
structure GetMsgsReq where
  peerId : Option UserId := none
  peerEmail : Option String := none
  conversationId : Option ConvId := none
  limit : Option Nat := none
  before : Option Time := none
deriving DecidableEq, Repr

/-- Outcome of GET /api/messages as reported to the caller. -/
inductive GetMsgsOutcome
  | error (status : Nat) (msg : String)
  | ok (peer : User) (messages : List Message) (conversationId : ConvId)
deriving DecidableEq, Repr

/-- The page-size computation of the handler: the query parameter (default
30 when absent; a value of 0 is falsy in JavaScript and also falls back to
30) capped at 100.  The parameter is modelled as an optional natural
number. -/
def jsLimit (limit : Option Nat) : Nat :=
  min (match limit with
       | none => 30
       | some n => if n = 0 then 30 else n) 100

/-- The Mongo query built for the message list: same conversation, and
creation time strictly below the cursor when a before cursor is given. -/
def msgMatchesQuery (cid : ConvId) (before : Option Time) (m : Message) : Bool :=
  m.conversationId == cid &&
    (match before with
     | none => true
     | some b => decide (m.createdAt < b))

/-- Descending creation-time order used by the message query sort. -/
def createdGe (a b : Message) : Prop :=
  b.createdAt ≤ a.createdAt

instance : DecidableRel createdGe := fun a b => Nat.decLe b.createdAt a.createdAt

instance : IsTotal Message createdGe :=
  ⟨fun a b => (Nat.le_total b.createdAt a.createdAt).elim Or.inl Or.inr⟩

instance : IsTrans Message createdGe :=
  ⟨fun _ _ _ h1 h2 => Nat.le_trans h2 h1⟩

/-- The message-list read of the handler: filter by the query, sort newest
first, apply the limit, and reverse so the page is returned oldest
first. -/
def listMessages (db : DB) (cid : ConvId) (limit : Option Nat) (before : Option Time) :
    List Message :=
  ((((db.messages.filter (msgMatchesQuery cid before)).insertionSort createdGe).take
      (jsLimit limit)).reverse)

/-- Tail of GET /api/messages shared by both lookup paths: read the page,
then reset the unread counter of the requesting user on the conversation,
and answer with peer, messages and conversation id. -/
def getMessagesFinish (db : DB) (me : UserId) (req : GetMsgsReq) (conv : Conversation)
    (peer : User) : GetMsgsOutcome × DB :=
  let msgs := listMessages db conv.id req.limit req.before
  let db2 := updateConvById db conv.id (fun c =>
    { c with unreadCount := setUnread c.unreadCount me 0 })
  (.ok peer msgs conv.id, db2)

/-- GET /api/messages.  With a conversationId the conversation is fetched
and the caller must be a participant (a non-participant gets the same 404
body as a missing conversation); with a peerId or peerEmail the peer is
resolved and the conversation is created on demand by
getOrCreateConversation.  In the conversationId path the other participant
is loaded and must still exist; an inconsistent participant array surfaces
as the generic 500 of the catch block. -/
def getMessages (db : DB) (me : UserId) (req : GetMsgsReq) (t : Time) :
    GetMsgsOutcome × DB :=
  match req.conversationId with
  | some cid =>
    match findConvById db cid with
    | none => (.error 404 "Conversation not found", db)
    | some conv =>
      if conv.participants.contains me then
        match conv.participants.find? (fun p => p != me) with
        | none => (.error 500 "Server error", db)
        | some otherId =>
          match findUserById db otherId with
          | none => (.error 404 "Conversation participant not found", db)
          | some peer => getMessagesFinish db me req conv peer
      else
        (.error 404 "Conversation not found", db)
  | none =>
    match req.peerId, req.peerEmail with
    | none, none => (.error 400 "peerId, peerEmail, or conversationId required", db)
    | _, _ =>
      match resolvePeer db req.peerId req.peerEmail with
      | none => (.error 404 "Peer not found", db)
      | some peer =>
        getMessagesFinish (getOrCreateConversation db [me, peer.id] t).2 me req
          (getOrCreateConversation db [me, peer.id] t).1 peer

/-- Live event routed by the read-receipt handler: a message:read event
addressed to the sender of the message. -/
inductive Emit
  | messageRead (toUser : UserId) (messageId : MsgId) (readBy : UserId)
deriving DecidableEq, Repr

/-- The socket message:read handler.  It returns the new store and the list
of routed events; the source handler has no acknowledgement and its catch
block only logs, so no error can reach the caller: a missing message id and
a reader who is not the receiver both fall through silently.  When the
caller is the receiver, the message is saved with status read and seenAt
now, and a message:read event is routed to the sender. -/
def messageReadHandler (db : DB) (caller : UserId) (messageId : Option MsgId) (t : Time) :
    DB × List Emit :=
  match messageId with
  | none => (db, [])
  | some mid =>
    match findMsg db mid with
    | none => (db, [])
    | some m =>
      if m.receiver == caller then
        (updateMsgById db mid (fun x => { x with status := .read, seenAt := some t }),
         [.messageRead m.sender mid caller])
      else
        (db, [])

/-- Outcome of GET /api/conversations/:conversationId as reported to the
caller (the essential payload: conversation id and the unread counter of
the requesting user). -/
inductive ConvDetailsOutcome
  | error (status : Nat) (msg : String)
  | ok (conversationId : ConvId) (unreadCount : Nat)
deriving DecidableEq, Repr

/-- GET /api/conversations/:conversationId: 404 when the conversation does
not exist, 403 Access denied when the caller is not a participant. -/
def getConversationDetails (db : DB) (me : UserId) (cid : ConvId) : ConvDetailsOutcome :=
  match findConvById db cid with
  | none => .error 404 "Conversation not found"
  | some conv =>
    if conv.participants.contains me then
      .ok conv.id (getUnread conv.unreadCount me)
    else
      .error 403 "Access denied"

/-- Presence entry stored in the connectedUsers map for a live session. -/
structure PresenceEntry where
  socketId : Nat
  email : String
  name : String
  connectedAt : Time
deriving DecidableEq, Repr

/-- The process-wide connectedUsers map, user id to presence entry (at most
one entry per key, Map semantics on the association list). -/
abbrev Registry := List (UserId × PresenceEntry)

/-- connectedUsers.get. -/
def lookupEntry (reg : Registry) (uid : UserId) : Option PresenceEntry :=
  (reg.find? (fun p => p.1 == uid)).map (fun p => p.2)

/-- connectedUsers.set on connection: replace the entry for the user id if
present, else add one. -/
def registerConnection (reg : Registry) (uid : UserId) (e : PresenceEntry) : Registry :=
  if reg.any (fun p => p.1 == uid) then
    reg.map (fun p => if p.1 == uid then (uid, e) else p)
  else
    reg ++ [(uid, e)]

/-- The disconnect handler: connectedUsers.delete(userId).  The user id was
captured when the socket connected; the entry is removed by user id alone,
without comparing the stored socket id against the disconnecting
socket. -/
def disconnectCleanup (reg : Registry) (uid : UserId) : Registry :=
  reg.filter (fun p => p.1 != uid)

/-- Local phase of one getOrCreateConversation call in the interleaving
model: before the findOne await, after a findOne that returned null (about
to create), or finished with a conversation in hand. -/
inductive GocPhase
  | start
  | willInsert
  | done (c : Conversation)
deriving DecidableEq, Repr

/-- Two concurrent getOrCreateConversation callers over one shared store. -/
structure GocSystem where
  db : DB
  caller1 : GocPhase
  caller2 : GocPhase
deriving DecidableEq, Repr

/-- Effect of the findOne await on the local phase: return the found
conversation, or move on to the create step. -/
def gocFindStep (db : DB) (sorted : List UserId) : GocPhase :=
  match gocFind db sorted with
  | some c => .done c
  | none => .willInsert

/-- Interleaving semantics of two concurrent getOrCreateConversation calls
for the same pair: each caller runs its findOne and, when that returned
null, its Conversation.create, and the two awaited store operations of the
two callers interleave arbitrarily.  Each constructor is one atomic store
operation of one caller, exactly the operations of
getOrCreateConversation. -/
inductive GocStep (sorted : List UserId) (t : Time) : GocSystem → GocSystem → Prop
  | find1 (s : GocSystem) (h : s.caller1 = .start) :
      GocStep sorted t s { s with caller1 := gocFindStep s.db sorted }
  | find2 (s : GocSystem) (h : s.caller2 = .start) :
      GocStep sorted t s { s with caller2 := gocFindStep s.db sorted }
  | insert1 (s : GocSystem) (h : s.caller1 = .willInsert) :
      GocStep sorted t s
        ⟨(gocInsert s.db sorted t).2, .done (gocInsert s.db sorted t).1, s.caller2⟩
  | insert2 (s : GocSystem) (h : s.caller2 = .willInsert) :
      GocStep sorted t s
        ⟨(gocInsert s.db sorted t).2, s.caller1, .done (gocInsert s.db sorted t).1⟩

/-- One store-mutating operation of the API core, as a step relation on the
store: a send (either transport), a message fetch, a read receipt, or a
bare conversation get-or-create (POST /api/conversations). -/
inductive AppStep : DB → DB → Prop
  | send (db : DB) (sub : UserId) (req : SendReq) (t : Time) :
      AppStep db (sendMessage db sub req t).2
  | fetch (db : DB) (me : UserId) (req : GetMsgsReq) (t : Time) :
      AppStep db (getMessages db me req t).2
  | markRead (db : DB) (caller : UserId) (mid : Option MsgId) (t : Time) :
      AppStep db (messageReadHandler db caller mid t).1
  | getOrCreate (db : DB) (pids : List UserId) (t : Time) :
      AppStep db (getOrCreateConversation db pids t).2

/-- Two registered users and an otherwise empty store, the initial state of
the first-contact scenarios. -/
def exDb0 : DB :=
  { users := [{ id := 1, name := "A", email := "a@x.com" },
              { id := 2, name := "B", email := "b@x.com" }]
    conversations := []
    messages := []
    nextConvId := 10
    nextMsgId := 20 }

/-- Store with one conversation between users 1 and 2 and one sent message
from 1 to 2, plus a third registered user 3. -/
def exDb1 : DB :=
  { users := [{ id := 1, name := "A", email := "a@x.com" },
              { id := 2, name := "B", email := "b@x.com" },
              { id := 3, name := "C", email := "c@x.com" }]
    conversations := [{ id := 10
                        participants := [1, 2]
                        lastMessage := { text := "hello", sender := some 1, timestamp := 5 }
                        unreadCount := [(2, 1)] }]
    messages := [{ id := 20
                   conversationId := 10
                   sender := 1
                   receiver := 2
                   text := "hello"
                   status := .sent
                   seenAt := none
                   messageType := .text
                   fileAttachment := none
                   createdAt := 5 }]
    nextConvId := 11
    nextMsgId := 21 }

/-- Store with one conversation between users 1 and 2 holding two messages
at distinct creation times, for the pagination statements. -/
def exDb2 : DB :=
  { users := [{ id := 1, name := "A", email := "a@x.com" },
              { id := 2, name := "B", email := "b@x.com" }]
    conversations := [{ id := 10
                        participants := [1, 2]
                        lastMessage := { text := "second", sender := some 2, timestamp := 6 }
                        unreadCount := [(1, 1), (2, 1)] }]
    messages := [{ id := 20
                   conversationId := 10
                   sender := 1
                   receiver := 2
                   text := "first"
                   status := .sent
                   seenAt := none
                   messageType := .text
                   fileAttachment := none
                   createdAt := 5 },
                 { id := 21
                   conversationId := 10
                   sender := 2
                   receiver := 1
                   text := "second"
                   status := .sent
                   seenAt := none
                   messageType := .text
                   fileAttachment := none
                   createdAt := 6 }]
    nextConvId := 11
    nextMsgId := 22 }


/-- Looking up one key after the per-entry rewrite of a Mongo map set:
the rewrite commutes with the lookup because it preserves keys. -/
theorem find?_key_map_set (l : List (UserId × Nat)) (u v : UserId) (n : Nat) :
    (l.map (fun p => if p.1 == u then (u, n) else p)).find? (fun p => p.1 == v) =
      (l.find? (fun p => p.1 == v)).map (fun p => if p.1 == u then (u, n) else p) := by
  rw [List.find?_map]
  have hpred : ((fun p : UserId × Nat => p.1 == v) ∘ fun p => if p.1 == u then (u, n) else p) =
      fun p : UserId × Nat => p.1 == v := by
    funext p
    by_cases h : p.1 = u
    · simp [Function.comp, h]
    · simp [Function.comp, h]
  rw [hpred]

/-- setUnread stores the written value under the written key. -/
theorem getUnread_setUnread_self (l : List (UserId × Nat)) (u : UserId) (n : Nat) :
    getUnread (setUnread l u n) u = n := by
  unfold setUnread
  by_cases hany : l.any (fun p => p.1 == u)
  · rw [if_pos hany]
    unfold getUnread
    rw [find?_key_map_set]
    obtain ⟨p, hp, hpu⟩ := List.any_eq_true.mp hany
    cases hfind : l.find? (fun p => p.1 == u) with
    | none =>
      rw [List.find?_eq_none] at hfind
      exact absurd hpu (by simpa using hfind p hp)
    | some q =>
      have hq := List.find?_some hfind
      have hq2 : q.1 = u := by simpa using hq
      simp [hq2]
  · rw [if_neg hany]
    unfold getUnread
    rw [List.find?_append]
    have hnone : l.find? (fun p => p.1 == u) = none := by
      rw [List.find?_eq_none]
      intro x hx hxu
      exact hany (List.any_eq_true.mpr ⟨x, hx, hxu⟩)
    simp [hnone]

/-- setUnread leaves every other key unchanged. -/
theorem getUnread_setUnread_other (l : List (UserId × Nat)) (u v : UserId) (n : Nat)
    (hvu : v ≠ u) :
    getUnread (setUnread l u n) v = getUnread l v := by
  unfold setUnread
  by_cases hany : l.any (fun p => p.1 == u)
  · rw [if_pos hany]
    unfold getUnread
    rw [find?_key_map_set]
    cases hfind : l.find? (fun p => p.1 == v) with
    | none => simp
    | some q =>
      have hq := List.find?_some hfind
      have hq2 : q.1 = v := by simpa using hq
      have hqu : ¬ q.1 = u := by
        rw [hq2]
        exact hvu
      simp [hqu]
  · rw [if_neg hany]
    unfold getUnread
    rw [List.find?_append]
    have huv : ((u, n).1 == v) = false := by
      simp only [beq_eq_false_iff_ne]
      exact Ne.symm hvu
    cases hfind : l.find? (fun p => p.1 == v) with
    | none => simp [List.find?, huv]
    | some q => simp

/-- incUnread adds exactly 1 to the addressed counter. -/
theorem getUnread_incUnread_self (l : List (UserId × Nat)) (u : UserId) :
    getUnread (incUnread l u) u = getUnread l u + 1 := by
  unfold incUnread
  exact getUnread_setUnread_self l u (getUnread l u + 1)

/-- incUnread leaves every other counter unchanged. -/
theorem getUnread_incUnread_other (l : List (UserId × Nat)) (u v : UserId) (hvu : v ≠ u) :
    getUnread (incUnread l u) v = getUnread l v := by
  unfold incUnread
  exact getUnread_setUnread_other l u v _ hvu

/-- Looking up a conversation id in an updated collection: the update maps
the found record when the updater preserves ids. -/
theorem findConvById_updateConvById (db : DB) (cid k : ConvId)
    (f : Conversation → Conversation) (hf : ∀ c, (f c).id = c.id) :
    findConvById (updateConvById db cid f) k =
      (findConvById db k).map (fun c => if c.id == cid then f c else c) := by
  unfold findConvById updateConvById
  rw [List.find?_map]
  have hpred : ((fun c : Conversation => c.id == k) ∘ fun c => if c.id == cid then f c else c) =
      fun c : Conversation => c.id == k := by
    funext c
    by_cases h : c.id = cid
    · simp [Function.comp, h, hf]
    · simp [Function.comp, h]
  rw [hpred]

/-- Looking up a message id in an updated collection: the update maps the
found record when the updater preserves ids. -/
theorem findMsg_updateMsgById (db : DB) (mid k : MsgId)
    (f : Message → Message) (hf : ∀ m, (f m).id = m.id) :
    findMsg (updateMsgById db mid f) k =
      (findMsg db k).map (fun m => if m.id == mid then f m else m) := by
  unfold findMsg updateMsgById
  rw [List.find?_map]
  have hpred : ((fun m : Message => m.id == k) ∘ fun m => if m.id == mid then f m else m) =
      fun m : Message => m.id == k := by
    funext m
    by_cases h : m.id = mid
    · simp [Function.comp, h, hf]
    · simp [Function.comp, h]
  rw [hpred]

/-- In a collection with pairwise distinct ids, looking a member up by its
own id finds exactly that member. -/
theorem find?_id_of_mem {α : Type} (key : α → Nat) (l : List α)
    (hpw : l.Pairwise (fun a b => key a ≠ key b)) (c : α) (hc : c ∈ l) :
    l.find? (fun x => key x == key c) = some c := by
  induction l with
  | nil => cases hc
  | cons a l ih =>
    rcases List.mem_cons.mp hc with h | h
    · subst h
      simp
    · have hne : key a ≠ key c := (List.pairwise_cons.mp hpw).1 c h
      rw [List.find?_cons_of_neg _ (by simp [hne])]
      exact ih (List.pairwise_cons.mp hpw).2 h

/-- A conversation member of a collection with distinct ids is returned by
the lookup of its own id. -/
theorem findConvById_of_mem (db : DB)
    (hpw : db.conversations.Pairwise (fun a b => a.id ≠ b.id))
    (c : Conversation) (hc : c ∈ db.conversations) :
    findConvById db c.id = some c := by
  unfold findConvById
  exact find?_id_of_mem (fun x : Conversation => x.id) db.conversations hpw c hc

/-- The conversation returned by gocFind is a member of the collection. -/
theorem gocFind_mem (db : DB) (sorted : List UserId) (c : Conversation)
    (h : gocFind db sorted = some c) : c ∈ db.conversations :=
  List.mem_of_find?_eq_some h

/-- A get-or-create never touches the messages collection. -/
theorem getOrCreateConversation_messages (db : DB) (pids : List UserId) (t : Time) :
    ((getOrCreateConversation db pids t).2).messages = db.messages := by
  unfold getOrCreateConversation
  cases h : gocFind db (jsSort pids) <;> simp [gocInsert]

/-- A get-or-create never touches the users collection. -/
theorem getOrCreateConversation_users (db : DB) (pids : List UserId) (t : Time) :
    ((getOrCreateConversation db pids t).2).users = db.users := by
  unfold getOrCreateConversation
  cases h : gocFind db (jsSort pids) <;> simp [gocInsert]

/-- A conversation update never touches the messages collection. -/
theorem updateConvById_messages (db : DB) (cid : ConvId) (f : Conversation → Conversation) :
    (updateConvById db cid f).messages = db.messages := rfl

/-- The GET /api/messages tail never touches the messages collection. -/
theorem getMessagesFinish_messages (db : DB) (me : UserId) (req : GetMsgsReq)
    (conv : Conversation) (peer : User) :
    ((getMessagesFinish db me req conv peer).2).messages = db.messages := rfl

/-- GET /api/messages never touches the messages collection. -/
theorem getMessages_messages (db : DB) (me : UserId) (req : GetMsgsReq) (t : Time) :
    ((getMessages db me req t).2).messages = db.messages := by
  unfold getMessages
  split
  · split
    · rfl
    · split
      · split
        · rfl
        · split
          · rfl
          · exact getMessagesFinish_messages ..
      · rfl
  · split
    · rfl
    · split
      · rfl
      · rw [getMessagesFinish_messages, getOrCreateConversation_messages]


/-- A successful validation implies sender and receiver are distinct
users. -/
theorem sendValidate_ok_ne (db : DB) (sub : UserId) (req : SendReq) (s p : User)
    (h : sendValidate db sub req = .ok (s, p)) : s.id ≠ p.id := by
  unfold sendValidate at h
  split at h
  · cases h
  · split at h
    · cases h
    · split at h
      · cases h
      · split at h
        · cases h
        · rename_i hne
          injection h with h2
          injection h2 with ha hb
          subst ha
          subst hb
          simpa using hne

/-- The unread counter read back after the lastMessage update and the
unread increment of the send pipeline: the two id-keyed updates commute
with the id lookup. -/
theorem unreadIn_after_send_updates (db : DB) (cid : ConvId) (lm : Conversation → LastMessage)
    (ru x : UserId) :
    unreadIn (updateConvById (updateConvById db cid (fun c => { c with lastMessage := lm c }))
        cid (fun c => { c with unreadCount := incUnread c.unreadCount ru })) cid x =
      (match findConvById db cid with
       | none => 0
       | some c => getUnread (incUnread c.unreadCount ru) x) := by
  unfold unreadIn
  rw [findConvById_updateConvById
        (updateConvById db cid (fun c => { c with lastMessage := lm c })) cid cid
        (fun c => { c with unreadCount := incUnread c.unreadCount ru }) (fun c => rfl)]
  rw [findConvById_updateConvById db cid cid
        (fun c => { c with lastMessage := lm c }) (fun c => rfl)]
  cases h : findConvById db cid with
  | none => simp
  | some c =>
    have hc := List.find?_some h
    have hc2 : c.id = cid := by simpa using hc
    simp [hc2]

/-- A member matching the lookup predicate rules a none result out. -/
theorem find?_ne_none_of_mem {α : Type} (l : List α) (p : α → Bool) (c : α)
    (hc : c ∈ l) (hp : p c = true) : l.find? p ≠ none := by
  intro h
  rw [List.find?_eq_none] at h
  exact h c hc hp

/-- Unfolding equation of getOrCreateConversation when the pair lookup
finds an existing conversation. -/
theorem getOrCreateConversation_eq_some (db : DB) (pids : List UserId) (t : Time)
    (c : Conversation) (h : gocFind db (jsSort pids) = some c) :
    getOrCreateConversation db pids t = (c, db) := by
  unfold getOrCreateConversation
  rw [h]

/-- Unfolding equation of getOrCreateConversation when the pair lookup
finds nothing. -/
theorem getOrCreateConversation_eq_none (db : DB) (pids : List UserId) (t : Time)
    (h : gocFind db (jsSort pids) = none) :
    getOrCreateConversation db pids t = gocInsert db (jsSort pids) t := by
  unfold getOrCreateConversation
  rw [h]

/-- Finding in a list extended on the right by a matching element: either
the original lookup already succeeded and is unchanged, or it was empty and
the appended element is found. -/
theorem find?_append_cases {α : Type} (l : List α) (a : α) (p : α → Bool) (hp : p a = true) :
    ((l ++ [a]).find? p = l.find? p ∧ l.find? p ≠ none) ∨
    (l.find? p = none ∧ (l ++ [a]).find? p = some a) := by
  cases h : l.find? p with
  | some b =>
    left
    refine ⟨?_, by simp [h]⟩
    rw [List.find?_append, h]
    rfl
  | none =>
    right
    refine ⟨rfl, ?_⟩
    rw [List.find?_append, h]
    simp [hp]

/-- Relation between the id lookup before and after a get-or-create, at the
id of the returned conversation: either the lookup is unchanged (and cannot
miss), or nothing carried the id before and the lookup now returns exactly
the freshly inserted conversation, whose unreadCount map is empty. -/
theorem getOrCreate_find_cases (db : DB) (pids : List UserId) (t : Time) :
    (findConvById (getOrCreateConversation db pids t).2
        ((getOrCreateConversation db pids t).1.id) =
        findConvById db ((getOrCreateConversation db pids t).1.id) ∧
      findConvById db ((getOrCreateConversation db pids t).1.id) ≠ none) ∨
    (findConvById db ((getOrCreateConversation db pids t).1.id) = none ∧
      findConvById (getOrCreateConversation db pids t).2
        ((getOrCreateConversation db pids t).1.id) =
        some ((getOrCreateConversation db pids t).1) ∧
      ((getOrCreateConversation db pids t).1).unreadCount = []) := by
  cases hgoc : gocFind db (jsSort pids) with
  | some c =>
    rw [getOrCreateConversation_eq_some db pids t c hgoc]
    left
    refine ⟨rfl, ?_⟩
    exact find?_ne_none_of_mem _ _ c (gocFind_mem db _ c hgoc) (by simp)
  | none =>
    rw [getOrCreateConversation_eq_none db pids t hgoc]
    have h := find?_append_cases db.conversations (gocInsert db (jsSort pids) t).1
      (fun x => x.id == (gocInsert db (jsSort pids) t).1.id) (by simp)
    rcases h with ⟨h1, h2⟩ | ⟨h1, h2⟩
    · left
      exact ⟨h1, h2⟩
    · right
      exact ⟨h1, h2, rfl⟩


/-- Specialization of the update-commutation lemma to a literal store, so
that rewriting fires on the store produced by the send pipeline. -/
theorem unreadIn_mk_updates (us : List User) (cs : List Conversation) (ms : List Message)
    (nc nm : Nat) (cid : ConvId) (lm : Conversation → LastMessage) (ru x : UserId) :
    unreadIn (updateConvById (updateConvById
        { users := us, conversations := cs, messages := ms, nextConvId := nc, nextMsgId := nm }
        cid (fun c => { c with lastMessage := lm c }))
        cid (fun c => { c with unreadCount := incUnread c.unreadCount ru })) cid x =
      (match cs.find? (fun c => c.id == cid) with
       | none => 0
       | some c => getUnread (incUnread c.unreadCount ru) x) :=
  unreadIn_after_send_updates
    { users := us, conversations := cs, messages := ms, nextConvId := nc, nextMsgId := nm }
    cid lm ru x

set_option maxHeartbeats 1000000 in
theorem sendPersist_effects (db : DB) (s p : User) (req : SendReq) (t : Time)
    (msg : Message) (cid : ConvId) (hne : s.id ≠ p.id)
    (hs : (sendPersist db s p req t).1 = .created msg cid) :
    (sendPersist db s p req t).2.messages = db.messages ++ [msg] ∧
    msg.status = .sent ∧ msg.sender = s.id ∧ msg.receiver = p.id ∧
    unreadIn (sendPersist db s p req t).2 cid p.id = unreadIn db cid p.id + 1 ∧
    unreadIn (sendPersist db s p req t).2 cid s.id = unreadIn db cid s.id ∧
    (findConvById db cid = none → unreadIn (sendPersist db s p req t).2 cid s.id = 0) := by
  simp only [sendPersist] at hs ⊢
  by_cases hlen : 2000 < (jsTrim (req.text.getD "")).length
  · rw [if_pos hlen] at hs
    simp at hs
  · rw [if_neg hlen] at hs ⊢
    injection hs with h1 h2
    subst h2
    subst h1
    refine ⟨?_, rfl, rfl, rfl, ?_, ?_, ?_⟩
    · simp [updateConvById_messages, getOrCreateConversation_messages]
    · simp only [unreadIn_mk_updates]
      show (match findConvById (getOrCreateConversation db [s.id, p.id] t).2
              ((getOrCreateConversation db [s.id, p.id] t).1.id) with
            | none => 0
            | some c => getUnread (incUnread c.unreadCount p.id) p.id) =
          unreadIn db ((getOrCreateConversation db [s.id, p.id] t).1.id) p.id + 1
      rcases getOrCreate_find_cases db [s.id, p.id] t with ⟨h1, h2⟩ | ⟨h1, h2, h3⟩
      · rw [h1]
        cases hfd : findConvById db ((getOrCreateConversation db [s.id, p.id] t).1.id) with
        | none => exact absurd hfd h2
        | some c2 =>
          unfold unreadIn
          rw [hfd]
          simp [getUnread_incUnread_self]
      · rw [h2]
        show getUnread (incUnread (getOrCreateConversation db [s.id, p.id] t).1.unreadCount
              p.id) p.id = _
        rw [h3]
        unfold unreadIn
        rw [h1]
        rw [getUnread_incUnread_self]
        simp [getUnread]
    · simp only [unreadIn_mk_updates]
      show (match findConvById (getOrCreateConversation db [s.id, p.id] t).2
              ((getOrCreateConversation db [s.id, p.id] t).1.id) with
            | none => 0
            | some c => getUnread (incUnread c.unreadCount p.id) s.id) =
          unreadIn db ((getOrCreateConversation db [s.id, p.id] t).1.id) s.id
      rcases getOrCreate_find_cases db [s.id, p.id] t with ⟨h1, h2⟩ | ⟨h1, h2, h3⟩
      · rw [h1]
        cases hfd : findConvById db ((getOrCreateConversation db [s.id, p.id] t).1.id) with
        | none => exact absurd hfd h2
        | some c2 =>
          unfold unreadIn
          rw [hfd]
          simp [getUnread_incUnread_other _ _ _ hne]
      · rw [h2]
        show getUnread (incUnread (getOrCreateConversation db [s.id, p.id] t).1.unreadCount
              p.id) s.id = _
        rw [h3]
        unfold unreadIn
        rw [h1]
        rw [getUnread_incUnread_other _ _ _ hne]
        simp [getUnread]
    · intro hnone
      simp only [unreadIn_mk_updates]
      show (match findConvById (getOrCreateConversation db [s.id, p.id] t).2
              ((getOrCreateConversation db [s.id, p.id] t).1.id) with
            | none => 0
            | some c => getUnread (incUnread c.unreadCount p.id) s.id) = 0
      rcases getOrCreate_find_cases db [s.id, p.id] t with ⟨h1, h2⟩ | ⟨h1, h2, h3⟩
      · exact absurd hnone h2
      · rw [h2]
        show getUnread (incUnread (getOrCreateConversation db [s.id, p.id] t).1.unreadCount
              p.id) s.id = 0
        rw [h3]
        rw [getUnread_incUnread_other _ _ _ hne]
        simp [getUnread]

/-- Claim C2: for every successful send, exactly one message with status
sent is appended to the store, the receiver unread counter for the
conversation is incremented by exactly 1, and the sender counter for that
conversation is unchanged; in particular on first contact (no conversation
under that id before the call) the sender counter is 0 afterwards. -/
theorem C2_send_success_effects (db : DB) (sub : UserId) (req : SendReq) (t : Time)
    (msg : Message) (cid : ConvId)
    (hs : (sendMessage db sub req t).1 = .created msg cid) :
    (sendMessage db sub req t).2.messages = db.messages ++ [msg] ∧
    msg.status = .sent ∧
    unreadIn (sendMessage db sub req t).2 cid msg.receiver =
      unreadIn db cid msg.receiver + 1 ∧
    unreadIn (sendMessage db sub req t).2 cid msg.sender = unreadIn db cid msg.sender ∧
    (findConvById db cid = none →
      unreadIn (sendMessage db sub req t).2 cid msg.sender = 0) := by
  unfold sendMessage at hs ⊢
  cases hv : sendValidate db sub req with
  | error es =>
    rw [hv] at hs
    simp at hs
  | ok sp =>
    rw [hv] at hs
    have hne := sendValidate_ok_ne db sub req sp.1 sp.2 (by rw [hv])
    obtain ⟨m1, m2, m3, m4, m5, m6, m7⟩ := sendPersist_effects db sp.1 sp.2 req t msg cid hne hs
    rw [m3, m4]
    exact ⟨m1, m2, m5, m6, m7⟩

/-- The message record created by the first-contact scenario send. -/
def exMsgHello : Message :=
  { id := 20
    conversationId := 10
    sender := 1
    receiver := 2
    text := "hello"
    status := .sent
    seenAt := none
    messageType := .text
    fileAttachment := none
    createdAt := 5 }

/-- Witness for C2 on the first-contact scenario: user 1 sends hello to
user 2 in the two-user store. -/
theorem C2_send_success_effects_witness :
    (sendMessage exDb0 1 { toId := some 2, text := some "hello" } 5).2.messages =
      exDb0.messages ++ [exMsgHello] ∧
    exMsgHello.status = .sent ∧
    unreadIn (sendMessage exDb0 1 { toId := some 2, text := some "hello" } 5).2 10
        exMsgHello.receiver = unreadIn exDb0 10 exMsgHello.receiver + 1 ∧
    unreadIn (sendMessage exDb0 1 { toId := some 2, text := some "hello" } 5).2 10
        exMsgHello.sender = unreadIn exDb0 10 exMsgHello.sender ∧
    unreadIn (sendMessage exDb0 1 { toId := some 2, text := some "hello" } 5).2 10
      exMsgHello.sender = 0 :=
  have h := C2_send_success_effects exDb0 1 { toId := some 2, text := some "hello" } 5
    exMsgHello 10 (by decide)
  ⟨h.1, h.2.1, h.2.2.1, h.2.2.2.1, h.2.2.2.2 (by decide)⟩

/-- Claim C9: a send rejected by validation (missing body, unknown sender,
unresolvable receiver, or self-message; every error except the generic 500)
leaves the persisted store exactly as it was. -/
theorem C9_validation_failure_no_side_effect (db : DB) (sub : UserId) (req : SendReq)
    (t : Time) (st : Nat) (emsg : String)
    (hs : (sendMessage db sub req t).1 = .error st emsg) (h500 : st ≠ 500) :
    (sendMessage db sub req t).2 = db := by
  unfold sendMessage at hs ⊢
  cases hv : sendValidate db sub req with
  | error es =>
    rfl
  | ok sp =>
    rw [hv] at hs
    have hp : (sendPersist db sp.1 sp.2 req t).1 = .error st emsg := hs
    simp only [sendPersist] at hp
    by_cases hlen : 2000 < (jsTrim (req.text.getD "")).length
    · rw [if_pos hlen] at hp
      injection hp with ha hb
      exact absurd ha.symm h500
    · rw [if_neg hlen] at hp
      cases hp

/-- Witness for C9: a self-send by user 1 errors with status 400 and
changes nothing. -/
theorem C9_validation_failure_no_side_effect_witness :
    (sendMessage exDb0 1 { toId := some 1, text := some "hi" } 5).2 = exDb0 :=
  C9_validation_failure_no_side_effect exDb0 1 { toId := some 1, text := some "hi" } 5
    400 "Cannot send message to yourself" (by decide) (by decide)

/-- The unread counter of the requesting user is 0 after the reset in the
GET /api/messages tail. -/
theorem unreadIn_getMessagesFinish (db : DB) (me : UserId) (req : GetMsgsReq)
    (conv : Conversation) (peer : User) :
    unreadIn (getMessagesFinish db me req conv peer).2 conv.id me = 0 := by
  simp only [getMessagesFinish]
  unfold unreadIn
  rw [findConvById_updateConvById db conv.id conv.id
      (fun c => { c with unreadCount := setUnread c.unreadCount me 0 }) (fun c => rfl)]
  cases h : findConvById db conv.id with
  | none => simp
  | some c =>
    have hc := List.find?_some h
    have hc2 : c.id = conv.id := by simpa using hc
    simp [hc2, getUnread_setUnread_self]

/-- Every message of a returned page is a stored message. -/
theorem listMessages_mem (db : DB) (cid : ConvId) (lim : Option Nat) (bef : Option Time)
    (m : Message) (hm : m ∈ listMessages db cid lim bef) : m ∈ db.messages := by
  unfold listMessages at hm
  rw [List.mem_reverse] at hm
  have h1 := (List.take_sublist _ _).subset hm
  have h2 := (List.perm_insertionSort createdGe _).mem_iff.mp h1
  exact (List.mem_filter.mp h2).1

/-- The page read depends only on the messages collection. -/
theorem listMessages_congr (db1 db2 : DB) (h : db1.messages = db2.messages) (cid : ConvId)
    (lim : Option Nat) (bef : Option Time) :
    listMessages db1 cid lim bef = listMessages db2 cid lim bef := by
  unfold listMessages
  rw [h]

/-- With a before cursor every returned message was created strictly
earlier than the cursor. -/
theorem listMessages_createdAt_lt (db : DB) (cid : ConvId) (lim : Option Nat) (b : Time)
    (m : Message) (hm : m ∈ listMessages db cid lim (some b)) : m.createdAt < b := by
  unfold listMessages at hm
  rw [List.mem_reverse] at hm
  have h1 := (List.take_sublist _ _).subset hm
  have h2 := (List.perm_insertionSort createdGe _).mem_iff.mp h1
  have h3 := (List.mem_filter.mp h2).2
  unfold msgMatchesQuery at h3
  simp at h3
  exact h3.2

/-- The returned page is ordered oldest first. -/
theorem listMessages_sorted (db : DB) (cid : ConvId) (lim : Option Nat) (bef : Option Time) :
    (listMessages db cid lim bef).Pairwise (fun a c => a.createdAt ≤ c.createdAt) := by
  unfold listMessages
  rw [List.pairwise_reverse]
  exact ((List.sorted_insertionSort createdGe
    (db.messages.filter (msgMatchesQuery cid bef))).sublist (List.take_sublist _ _))

/-- The returned page never exceeds the computed limit. -/
theorem listMessages_length (db : DB) (cid : ConvId) (lim : Option Nat) (bef : Option Time) :
    (listMessages db cid lim bef).length ≤ jsLimit lim := by
  unfold listMessages
  rw [List.length_reverse]
  exact List.length_take_le _ _

/-- The computed limit never exceeds 100. -/
theorem jsLimit_le_100 (lim : Option Nat) : jsLimit lim ≤ 100 :=
  Nat.min_le_right _ _

/-- Shape of every successful GET /api/messages: the requester unread
counter on the returned conversation is reset to 0, and the returned page
is the message-list read over a store with the same messages
collection. -/
theorem getMessages_ok_parts (db : DB) (me : UserId) (req : GetMsgsReq) (t : Time)
    (peer : User) (msgs : List Message) (cid : ConvId)
    (hs : (getMessages db me req t).1 = .ok peer msgs cid) :
    unreadIn (getMessages db me req t).2 cid me = 0 ∧
    ∃ dbx : DB, dbx.messages = db.messages ∧
      msgs = listMessages dbx cid req.limit req.before := by
  unfold getMessages at hs ⊢
  split at hs
  next cid0 heq1 =>
    split at hs
    next heq2 => simp at hs
    next conv heq2 =>
      split at hs
      next hpart =>
        split at hs
        next heq3 => simp at hs
        next otherId heq3 =>
          split at hs
          next heq4 => simp at hs
          next peerX heq4 =>
            simp only [getMessagesFinish] at hs
            injection hs with hpe hms hcid
            subst hcid
            subst hms
            simp only [heq1, heq2, hpart, if_true, heq3, heq4]
            exact ⟨unreadIn_getMessagesFinish db me req conv peerX, db, rfl, rfl⟩
      next hpart => simp at hs
  next heq1 =>
    split at hs
    next h0a h0b => simp at hs
    next hne0 =>
      split at hs
      next heq2 => simp at hs
      next peerX heq2 =>
        simp only [getMessagesFinish] at hs
        injection hs with hpe hms hcid
        subst hcid
        subst hms
        exact ⟨unreadIn_getMessagesFinish _ me req _ peerX,
          (getOrCreateConversation db [me, peerX.id] t).2,
          getOrCreateConversation_messages db [me, peerX.id] t, rfl⟩

/-- Claim C3: a successful getMessages leaves the stored messages (and so
every message status) unchanged, resets the requesting user unread counter
on the returned conversation to 0, and returns only stored message records
(so a sent message is returned as sent, viewing is not a read
receipt). -/
theorem C3_getMessages_resets_unread_keeps_statuses (db : DB) (me : UserId)
    (req : GetMsgsReq) (t : Time) (peer : User) (msgs : List Message) (cid : ConvId)
    (hs : (getMessages db me req t).1 = .ok peer msgs cid) :
    (getMessages db me req t).2.messages = db.messages ∧
    unreadIn (getMessages db me req t).2 cid me = 0 ∧
    ∀ m ∈ msgs, m ∈ db.messages := by
  obtain ⟨h1, dbx, hdx, hmsgs⟩ := getMessages_ok_parts db me req t peer msgs cid hs
  refine ⟨getMessages_messages db me req t, h1, ?_⟩
  intro m hm
  rw [hmsgs, listMessages_congr dbx db hdx] at hm
  exact listMessages_mem db cid req.limit req.before m hm

/-- Witness for C3: user 2 views conversation 10 of the one-message store;
the unread counter drops to 0 and the hello message is returned as
stored. -/
theorem C3_getMessages_resets_unread_keeps_statuses_witness :
    (getMessages exDb1 2 { conversationId := some 10 } 9).2.messages = exDb1.messages ∧
    unreadIn (getMessages exDb1 2 { conversationId := some 10 } 9).2 10 2 = 0 ∧
    exMsgHello ∈ exDb1.messages :=
  have h := C3_getMessages_resets_unread_keeps_statuses exDb1 2
    { conversationId := some 10 } 9 { id := 1, name := "A", email := "a@x.com" }
    [exMsgHello] 10 (by decide)
  ⟨h.1, h.2.1, h.2.2 exMsgHello (by decide)⟩

/-- Amended claim C7: with a before cursor every returned message is
strictly older than the cursor and the page is ordered oldest first; the
page size is bounded by the computed limit, which is the requested limit
capped at 100 when the request carries a positive limit, and the default
30 when the limit is absent or zero — there is no lower clamp to 1. -/
theorem C7_pagination_properties (db : DB) (me : UserId) (req : GetMsgsReq) (t : Time)
    (peer : User) (msgs : List Message) (cid : ConvId) (b : Time)
    (hb : req.before = some b)
    (hs : (getMessages db me req t).1 = .ok peer msgs cid) :
    (∀ m ∈ msgs, m.createdAt < b) ∧
    msgs.Pairwise (fun a c => a.createdAt ≤ c.createdAt) ∧
    msgs.length ≤ jsLimit req.limit ∧
    jsLimit req.limit ≤ 100 := by
  obtain ⟨h1, dbx, hdx, hmsgs⟩ := getMessages_ok_parts db me req t peer msgs cid hs
  subst hmsgs
  rw [hb]
  exact ⟨fun m hm => listMessages_createdAt_lt dbx cid req.limit b m hm,
    listMessages_sorted dbx cid req.limit (some b),
    listMessages_length dbx cid req.limit (some b),
    jsLimit_le_100 req.limit⟩

/-- First stored message of the two-message store. -/
def exMsg20 : Message :=
  { id := 20
    conversationId := 10
    sender := 1
    receiver := 2
    text := "first"
    status := .sent
    seenAt := none
    messageType := .text
    fileAttachment := none
    createdAt := 5 }

/-- Second stored message of the two-message store. -/
def exMsg21 : Message :=
  { id := 21
    conversationId := 10
    sender := 2
    receiver := 1
    text := "second"
    status := .sent
    seenAt := none
    messageType := .text
    fileAttachment := none
    createdAt := 6 }

/-- Counterexample to C7 as stated: a request with limit 0 returns a page
of 2 messages, exceeding the limit clamped to the interval from 1 to 100
(which would allow at most 1); the code has no lower clamp and treats a
zero limit as the default 30. -/
theorem C7_limit_zero_cex :
    (getMessages exDb2 1 { conversationId := some 10, limit := some 0, before := some 10 }
        0).1 =
      .ok { id := 2, name := "B", email := "b@x.com" } [exMsg20, exMsg21] 10 ∧
    ¬ (([exMsg20, exMsg21].length : Nat) ≤ max 1 (min 0 100)) := by
  constructor
  · decide
  · decide

/-- Witness for C7 on the two-message store with limit 1 and cursor 10:
only the newest message below the cursor is returned, oldest first. -/
theorem C7_pagination_properties_witness :
    exMsg21.createdAt < 10 ∧
    ([exMsg21].Pairwise (fun a c => a.createdAt ≤ c.createdAt)) ∧
    ([exMsg21].length ≤ jsLimit (some 1)) ∧
    jsLimit (some 1) ≤ 100 :=
  have h := C7_pagination_properties exDb2 1
    { conversationId := some 10, limit := some 1, before := some 10 } 0
    { id := 2, name := "B", email := "b@x.com" } [exMsg21] 10 10 (by decide) (by decide)
  ⟨h.1 exMsg21 (by decide), h.2.1, h.2.2.1, h.2.2.2⟩

/-- In a well-formed store no stored message references the next fresh
conversation id, so the page read at that id is empty. -/
theorem listMessages_at_fresh_id_nil (dbx db : DB) (hmx : dbx.messages = db.messages)
    (hwf : WF db) (lim : Option Nat) (bef : Option Time) :
    listMessages dbx db.nextConvId lim bef = [] := by
  unfold listMessages
  rw [hmx]
  have hfil : db.messages.filter (msgMatchesQuery db.nextConvId bef) = [] := by
    rw [List.filter_eq_nil_iff]
    intro m hm
    obtain ⟨c, hc, hcid⟩ := hwf.2.2.2.2 m hm
    have hlt := hwf.2.1 c hc
    have hne : m.conversationId ≠ db.nextConvId := by
      rw [hcid]
      exact Nat.ne_of_lt hlt
    unfold msgMatchesQuery
    simp [hne]
  rw [hfil]
  simp

/-- Effects of the peer-resolution path of GET /api/messages when no
conversation exists for the pair: an empty page is returned and a fresh
conversation with an empty lastMessage snapshot is inserted. -/
theorem getMessages_peer_path_effects (db : DB) (me : UserId) (req : GetMsgsReq)
    (t : Time) (u : User) (hwf : WF db)
    (hnone : gocFind db (jsSort [me, u.id]) = none) :
    (getMessagesFinish (getOrCreateConversation db [me, u.id] t).2 me req
        (getOrCreateConversation db [me, u.id] t).1 u).1 = .ok u [] db.nextConvId ∧
    (∃ c : Conversation,
      findConvById (getMessagesFinish (getOrCreateConversation db [me, u.id] t).2 me req
          (getOrCreateConversation db [me, u.id] t).1 u).2 db.nextConvId = some c ∧
      c.lastMessage.text = "" ∧ c.lastMessage.sender = none ∧
      c.participants = jsSort [me, u.id]) ∧
    (getMessagesFinish (getOrCreateConversation db [me, u.id] t).2 me req
        (getOrCreateConversation db [me, u.id] t).1 u).2.messages = db.messages ∧
    (getMessagesFinish (getOrCreateConversation db [me, u.id] t).2 me req
        (getOrCreateConversation db [me, u.id] t).1 u).2.conversations.length =
      db.conversations.length + 1 := by
  rw [getOrCreateConversation_eq_none db [me, u.id] t hnone]
  have hfresh : (gocInsert db (jsSort [me, u.id]) t).1.id = db.nextConvId := by
    simp [gocInsert]
  have hpage := listMessages_at_fresh_id_nil (gocInsert db (jsSort [me, u.id]) t).2 db
    (by rfl) hwf req.limit req.before
  refine ⟨?_, ?_, ?_, ?_⟩
  · simp only [getMessagesFinish]
    rw [hfresh, hpage]
  · simp only [getMessagesFinish]
    rw [findConvById_updateConvById
        (gocInsert db (jsSort [me, u.id]) t).2
        ((gocInsert db (jsSort [me, u.id]) t).1.id) db.nextConvId
        (fun c => { c with unreadCount := setUnread c.unreadCount me 0 }) (fun c => rfl)]
    have hpre : db.conversations.find? (fun c => c.id == db.nextConvId) = none := by
      rw [List.find?_eq_none]
      intro c hc
      have hlt := hwf.2.1 c hc
      simp [Nat.ne_of_lt hlt]
    have hX : findConvById (gocInsert db (jsSort [me, u.id]) t).2 db.nextConvId =
        some (gocInsert db (jsSort [me, u.id]) t).1 := by
      show (db.conversations ++ [(gocInsert db (jsSort [me, u.id]) t).1]).find? _ = _
      rw [List.find?_append, hpre]
      simp [hfresh]
    rw [hX]
    refine ⟨_, rfl, by simp [gocInsert], by simp [gocInsert], by simp [gocInsert]⟩
  · rw [getMessagesFinish_messages]
    simp [gocInsert]
  · simp only [getMessagesFinish, updateConvById, gocInsert]
    simp [List.length_append]

/-- Claim C10: fetching messages by a peerId or peerEmail that resolves to
a user, when no conversation exists for the pair, is not read-only — it
returns an empty page and, as a side effect, inserts a fresh conversation
for the pair with an empty lastMessage snapshot, leaving the messages
collection unchanged even though no message was ever sent. -/
theorem C10_fetch_by_peer_creates_conversation (db : DB) (me : UserId) (req : GetMsgsReq)
    (t : Time) (u : User)
    (hwf : WF db)
    (hcid : req.conversationId = none)
    (hres : resolvePeer db req.peerId req.peerEmail = some u)
    (hnn : ¬ (req.peerId = none ∧ req.peerEmail = none))
    (hnone : gocFind db (jsSort [me, u.id]) = none) :
    (getMessages db me req t).1 = .ok u [] db.nextConvId ∧
    (∃ c : Conversation, findConvById (getMessages db me req t).2 db.nextConvId = some c ∧
      c.lastMessage.text = "" ∧ c.lastMessage.sender = none ∧
      c.participants = jsSort [me, u.id]) ∧
    (getMessages db me req t).2.messages = db.messages ∧
    (getMessages db me req t).2.conversations.length = db.conversations.length + 1 := by
  have key : getMessages db me req t =
      getMessagesFinish (getOrCreateConversation db [me, u.id] t).2 me req
        (getOrCreateConversation db [me, u.id] t).1 u := by
    unfold getMessages
    cases hpi : req.peerId with
    | some pid =>
      rw [hpi] at hres
      simp only [hcid, hpi, hres]
    | none =>
      cases hpe : req.peerEmail with
      | none => exact absurd ⟨hpi, hpe⟩ hnn
      | some em =>
        rw [hpi, hpe] at hres
        simp only [hcid, hpi, hpe, hres]
  rw [key]
  exact getMessages_peer_path_effects db me req t u hwf hnone

/-- Witness for C10: user 1 fetches messages with user 2 in the empty
store; a fresh empty conversation 10 appears. -/
theorem C10_fetch_by_peer_creates_conversation_witness :
    (getMessages exDb0 1 { peerId := some 2 } 7).1 =
      .ok { id := 2, name := "B", email := "b@x.com" } [] exDb0.nextConvId ∧
    (∃ c : Conversation,
      findConvById (getMessages exDb0 1 { peerId := some 2 } 7).2 exDb0.nextConvId =
        some c ∧
      c.lastMessage.text = "" ∧ c.lastMessage.sender = none ∧
      c.participants = jsSort [1, 2]) ∧
    (getMessages exDb0 1 { peerId := some 2 } 7).2.messages = exDb0.messages ∧
    (getMessages exDb0 1 { peerId := some 2 } 7).2.conversations.length =
      exDb0.conversations.length + 1 :=
  C10_fetch_by_peer_creates_conversation exDb0 1 { peerId := some 2 } 7
    { id := 2, name := "B", email := "b@x.com" } (by unfold WF; decide) (by decide)
    (by decide) (by decide) (by decide)

/-- Counterexample to C5 as stated: in the one-message store no message
carries id 99, yet reading id 99 reports no error at all — the handler
result is the unchanged store with nothing emitted, identical to the
silent no-op of a non-receiver read — contradicting that markRead fails
with NotFound when the message is absent. -/
theorem C5_markRead_missing_message_silent_cex :
    messageReadHandler exDb1 2 (some 99) 5 = (exDb1, []) ∧
    messageReadHandler exDb1 2 (some 99) 5 = messageReadHandler exDb1 3 (some 20) 5 ∧
    findMsg exDb1 99 = none := by
  refine ⟨by decide, by decide, by decide⟩

/-- Case analysis of the message:read handler: a missing message id is a
silent no-op (store unchanged, nothing emitted), as is a reader who is not
the receiver; when the reader is the receiver the message is saved with
status read and seenAt set to now and a message:read event is routed to
the sender.  The handler has no error channel at all. -/
theorem messageReadHandler_cases (db : DB) (caller : UserId) (mid : MsgId) (t : Time) :
    (findMsg db mid = none → messageReadHandler db caller (some mid) t = (db, [])) ∧
    (∀ m, findMsg db mid = some m → m.receiver ≠ caller →
      messageReadHandler db caller (some mid) t = (db, [])) ∧
    (∀ m, findMsg db mid = some m → m.receiver = caller →
      messageReadHandler db caller (some mid) t =
        (updateMsgById db mid (fun x => { x with status := .read, seenAt := some t }),
         [.messageRead m.sender mid caller]) ∧
      findMsg (messageReadHandler db caller (some mid) t).1 mid =
        some { m with status := .read, seenAt := some t }) := by
  refine ⟨?_, ?_, ?_⟩
  · intro hnone
    simp only [messageReadHandler, hnone]
  · intro m hm hne
    have hb : (m.receiver == caller) = false := by
      simp [hne]
    simp only [messageReadHandler, hm, hb]
    simp
  · intro m hm hrec
    have hb : (m.receiver == caller) = true := by simp [hrec]
    constructor
    · simp only [messageReadHandler, hm, hb]
      simp
    · simp only [messageReadHandler, hm, hb, if_true]
      rw [findMsg_updateMsgById db mid mid
          (fun x => { x with status := .read, seenAt := some t }) (fun x => rfl)]
      rw [hm]
      have hc := List.find?_some hm
      have hc2 : m.id = mid := by simpa using hc
      simp [hc2]

/-- Amended claim C5: the message:read handler never reports an error.  A
missing message id is a silent no-op (store unchanged, nothing emitted),
exactly like a reader who is not the receiver; when the reader is the
receiver the message is saved with status read and seenAt set to now, and
a message:read event is routed to the sender. -/
theorem C5_markRead_behavior (db : DB) (caller : UserId) (mid : MsgId) (t : Time) :
    (findMsg db mid = none → messageReadHandler db caller (some mid) t = (db, [])) ∧
    (∀ m, findMsg db mid = some m → m.receiver ≠ caller →
      messageReadHandler db caller (some mid) t = (db, [])) ∧
    (∀ m, findMsg db mid = some m → m.receiver = caller →
      messageReadHandler db caller (some mid) t =
        (updateMsgById db mid (fun x => { x with status := .read, seenAt := some t }),
         [.messageRead m.sender mid caller]) ∧
      findMsg (messageReadHandler db caller (some mid) t).1 mid =
        some { m with status := .read, seenAt := some t }) :=
  messageReadHandler_cases db caller mid t

/-- Witness for C5 on the one-message store: the receiver read of message
20 marks it read with seenAt 5 and routes a message:read event to the
sender. -/
theorem C5_markRead_behavior_witness :
    messageReadHandler exDb1 2 (some 20) 5 =
      (updateMsgById exDb1 20 (fun x => { x with status := .read, seenAt := some 5 }),
       [.messageRead exMsgHello.sender 20 2]) ∧
    findMsg (messageReadHandler exDb1 2 (some 20) 5).1 20 =
      some { exMsgHello with status := .read, seenAt := some 5 } :=
  (C5_markRead_behavior exDb1 2 20 5).2.2 exMsgHello (by decide) (by decide)

/-- Counterexample to C4 as stated: user 7 registers session with socket 1,
re-registers with socket 2, then the old socket 1 session disconnects; the
disconnect handler deletes by user id alone, so the newer registration of
socket 2 is evicted instead of being left in place. -/
theorem C4_disconnect_evicts_newer_session_cex :
    lookupEntry (registerConnection (registerConnection [] 7
        { socketId := 1, email := "a@x.com", name := "A", connectedAt := 0 }) 7
        { socketId := 2, email := "a@x.com", name := "A", connectedAt := 5 }) 7 =
      some { socketId := 2, email := "a@x.com", name := "A", connectedAt := 5 } ∧
    lookupEntry (disconnectCleanup (registerConnection (registerConnection [] 7
        { socketId := 1, email := "a@x.com", name := "A", connectedAt := 0 }) 7
        { socketId := 2, email := "a@x.com", name := "A", connectedAt := 5 }) 7) 7 =
      none := by
  refine ⟨by decide, by decide⟩

/-- Amended claim C4: presence unregistration on disconnect removes the
registry entry for the disconnecting user id unconditionally — the stored
session handle is never compared — while entries of other users are left
untouched.  In particular an old session disconnect evicts a newer
registration of the same user. -/
theorem C4_disconnect_removes_by_user_id (reg : Registry) (uid : UserId) :
    lookupEntry (disconnectCleanup reg uid) uid = none ∧
    (∀ v, v ≠ uid → lookupEntry (disconnectCleanup reg uid) v = lookupEntry reg v) := by
  unfold lookupEntry disconnectCleanup
  induction reg with
  | nil => exact ⟨rfl, fun v hv => rfl⟩
  | cons a l ih =>
    rw [List.filter_cons]
    constructor
    · by_cases h : a.1 = uid
      · rw [if_neg (by simp [h])]
        exact ih.1
      · rw [if_pos (by simp [h])]
        rw [List.find?_cons_of_neg _ (by simp [h])]
        exact ih.1
    · intro v hv
      by_cases h : a.1 = uid
      · rw [if_neg (by simp [h])]
        rw [List.find?_cons_of_neg _ (by simp [h]; exact fun he => hv he.symm)]
        exact ih.2 v hv
      · rw [if_pos (by simp [h])]
        by_cases h2 : a.1 = v
        · rw [List.find?_cons_of_pos _ (by simp [h2]),
              List.find?_cons_of_pos _ (by simp [h2])]
        · rw [List.find?_cons_of_neg _ (by simp [h2]),
              List.find?_cons_of_neg _ (by simp [h2])]
          exact ih.2 v hv

/-- Two-user presence registry used by the C4 witness. -/
def exReg : Registry :=
  [(7, { socketId := 9, email := "a@x.com", name := "A", connectedAt := 0 }),
   (8, { socketId := 4, email := "b@x.com", name := "B", connectedAt := 1 })]

/-- Witness for C4 amended: after the session of user 7 disconnects, the
entry of user 7 is gone and the entry of user 8 is untouched. -/
theorem C4_disconnect_removes_by_user_id_witness :
    lookupEntry (disconnectCleanup exReg 7) 7 = none ∧
    lookupEntry (disconnectCleanup exReg 7) 8 = lookupEntry exReg 8 :=
  have h := C4_disconnect_removes_by_user_id exReg 7
  ⟨h.1, h.2 8 (by decide)⟩

/-- Counterexample to C8 as stated: in the one-conversation store,
non-participant user 3 fetching conversation details of conversation 10
gets 403 Access denied, while a missing conversation gets 404, so a
non-participant CAN distinguish an existing conversation from a missing
one on this endpoint. -/
theorem C8_nonparticipant_distinguishable_cex :
    getConversationDetails exDb1 3 10 = .error 403 "Access denied" ∧
    getConversationDetails exDb1 3 99 = .error 404 "Conversation not found" ∧
    ConvDetailsOutcome.error 403 "Access denied" ≠
      ConvDetailsOutcome.error 404 "Conversation not found" := by
  refine ⟨by decide, by decide, by decide⟩

/-- Amended claim C8: on the message-fetch path a non-participant gets the
same 404 response (and unchanged store) as for a missing conversation —
indistinguishable from absence — but on the conversation-details endpoint a
non-participant gets 403 Access denied while a missing conversation gets
404, so existence leaks there. -/
theorem C8_access_errors (db : DB) (me : UserId) (cid : ConvId) :
    (findConvById db cid = none →
      getConversationDetails db me cid = .error 404 "Conversation not found") ∧
    (∀ conv, findConvById db cid = some conv → conv.participants.contains me = false →
      getConversationDetails db me cid = .error 403 "Access denied") ∧
    (∀ (t : Time) (req : GetMsgsReq), req.conversationId = some cid →
      (findConvById db cid = none →
        (getMessages db me req t).1 = .error 404 "Conversation not found" ∧
        (getMessages db me req t).2 = db) ∧
      (∀ conv, findConvById db cid = some conv →
        conv.participants.contains me = false →
        (getMessages db me req t).1 = .error 404 "Conversation not found" ∧
        (getMessages db me req t).2 = db)) := by
  refine ⟨?_, ?_, ?_⟩
  · intro hnone
    simp only [getConversationDetails, hnone]
  · intro conv hconv hcont
    simp only [getConversationDetails, hconv, hcont]
    simp
  · intro t req hreq
    constructor
    · intro hnone
      simp only [getMessages, hreq, hnone]
      exact ⟨trivial, trivial⟩
    · intro conv hconv hcont
      simp only [getMessages, hreq, hconv, hcont]
      simp

/-- The stored conversation of the one-message store. -/
def exConv10 : Conversation :=
  { id := 10
    participants := [1, 2]
    lastMessage := { text := "hello", sender := some 1, timestamp := 5 }
    unreadCount := [(2, 1)] }

/-- Witness for C8 amended: non-participant user 3 gets 404 with unchanged
store on the message path for both an existing and a missing conversation,
while the details endpoint answers 403 for the existing one and 404 for the
missing one. -/
theorem C8_access_errors_witness :
    getConversationDetails exDb1 3 99 = .error 404 "Conversation not found" ∧
    getConversationDetails exDb1 3 10 = .error 403 "Access denied" ∧
    (getMessages exDb1 3 { conversationId := some 10 } 0).1 =
      .error 404 "Conversation not found" ∧
    (getMessages exDb1 3 { conversationId := some 10 } 0).2 = exDb1 ∧
    (getMessages exDb1 3 { conversationId := some 99 } 0).1 =
      .error 404 "Conversation not found" ∧
    (getMessages exDb1 3 { conversationId := some 99 } 0).2 = exDb1 :=
  have hmiss := (C8_access_errors exDb1 3 99).1 (by decide)
  have hdet := (C8_access_errors exDb1 3 10).2.1 exConv10 (by decide) (by decide)
  have hmsg10 := ((C8_access_errors exDb1 3 10).2.2 0
    { conversationId := some 10 } rfl).2 exConv10 (by decide) (by decide)
  have hmsg99 := ((C8_access_errors exDb1 3 99).2.2 0
    { conversationId := some 99 } rfl).1 (by decide)
  ⟨hmiss, hdet, hmsg10.1, hmsg10.2, hmsg99.1, hmsg99.2⟩

/-- The rank of a status never exceeds the rank of read. -/
theorem statusRank_le_read (s : Status) : statusRank s ≤ 2 := by
  cases s <;> simp [statusRank]

/-- A send never removes or rewrites a stored message: a message found
before the call is found unchanged after it. -/
theorem findMsg_after_send (db : DB) (sub : UserId) (req : SendReq) (t : Time)
    (mid : MsgId) (m : Message) (h : findMsg db mid = some m) :
    findMsg (sendMessage db sub req t).2 mid = some m := by
  unfold sendMessage
  cases hv : sendValidate db sub req with
  | error es => exact h
  | ok sp =>
    simp only [sendPersist]
    by_cases hlen : 2000 < (jsTrim (req.text.getD "")).length
    · rw [if_pos hlen]
      show (getOrCreateConversation db [sp.1.id, sp.2.id] t).2.messages.find?
        (fun x => x.id == mid) = some m
      rw [getOrCreateConversation_messages]
      exact h
    · rw [if_neg hlen]
      show ((getOrCreateConversation db [sp.1.id, sp.2.id] t).2.messages ++
        [_]).find? (fun x => x.id == mid) = some m
      rw [List.find?_append, getOrCreateConversation_messages]
      unfold findMsg at h
      rw [h]
      rfl

/-- A message fetch never changes any stored message. -/
theorem findMsg_after_getMessages (db : DB) (me : UserId) (req : GetMsgsReq) (t : Time)
    (mid : MsgId) : findMsg (getMessages db me req t).2 mid = findMsg db mid := by
  unfold findMsg
  rw [getMessages_messages]

/-- A read receipt only ever rewrites a message to status read: a message
found before is still found, with a status of at least the old rank. -/
theorem findMsg_after_markRead (db : DB) (caller : UserId) (midq : Option MsgId) (t : Time)
    (mid : MsgId) (m : Message) (h : findMsg db mid = some m) :
    ∃ m', findMsg (messageReadHandler db caller midq t).1 mid = some m' ∧
      statusRank m.status ≤ statusRank m'.status := by
  cases midq with
  | none => exact ⟨m, h, Nat.le_refl _⟩
  | some mid2 =>
    obtain ⟨hmissing, hnorecv, hrecv⟩ := messageReadHandler_cases db caller mid2 t
    cases h2 : findMsg db mid2 with
    | none =>
      rw [hmissing h2]
      exact ⟨m, h, Nat.le_refl _⟩
    | some m2 =>
      by_cases hrec : m2.receiver = caller
      · obtain ⟨heq, _⟩ := hrecv m2 h2 hrec
        rw [heq]
        simp only [findMsg_updateMsgById db mid2 mid
          (fun x => { x with status := Status.read, seenAt := some t }) (fun x => rfl)]
        rw [h]
        by_cases hid : m.id = mid2
        · refine ⟨_, rfl, ?_⟩
          simp only [Option.map_some, hid]
          simp
          exact statusRank_le_read m.status
        · refine ⟨m, ?_, Nat.le_refl _⟩
          simp [hid]
      · rw [hnorecv m2 h2 hrec]
        exact ⟨m, h, Nat.le_refl _⟩

/-- One store-mutating operation of the API never decreases the status of
a stored message. -/
theorem appStep_status_mono (db db' : DB) (h : AppStep db db') (mid : MsgId) (m : Message)
    (hm : findMsg db mid = some m) :
    ∃ m', findMsg db' mid = some m' ∧ statusRank m.status ≤ statusRank m'.status := by
  cases h with
  | send sub req t =>
    exact ⟨m, findMsg_after_send db sub req t mid m hm, Nat.le_refl _⟩
  | fetch me req t =>
    refine ⟨m, ?_, Nat.le_refl _⟩
    rw [findMsg_after_getMessages]
    exact hm
  | markRead caller midq t =>
    exact findMsg_after_markRead db caller midq t mid m hm
  | getOrCreate pids t =>
    refine ⟨m, ?_, Nat.le_refl _⟩
    show (getOrCreateConversation db pids t).2.messages.find? (fun x => x.id == mid) =
      some m
    rw [getOrCreateConversation_messages]
    exact hm

/-- Claim C6: along every sequence of API operations the status of every
stored message is monotone in the order sent, delivered, read — it never
moves backward, and a repeated markRead is a no-op on status (read stays
read) and never errors (the handler has no error channel at all). -/
theorem C6_status_monotone (db db' : DB) (h : Relation.ReflTransGen AppStep db db')
    (mid : MsgId) (m : Message) (hm : findMsg db mid = some m) :
    ∃ m', findMsg db' mid = some m' ∧ statusRank m.status ≤ statusRank m'.status := by
  induction h with
  | refl => exact ⟨m, hm, Nat.le_refl _⟩
  | tail hab hbc ih =>
    obtain ⟨m1, hm1, hr1⟩ := ih
    obtain ⟨m2, hm2, hr2⟩ := appStep_status_mono _ _ hbc mid m1 hm1
    exact ⟨m2, hm2, Nat.le_trans hr1 hr2⟩

/-- Witness for C6: one markRead step on the hello message never lowers its
rank below sent. -/
theorem C6_status_monotone_witness :
    ∃ m', findMsg (messageReadHandler exDb1 2 (some 20) 9).1 20 = some m' ∧
      statusRank exMsgHello.status ≤ statusRank m'.status :=
  C6_status_monotone exDb1 (messageReadHandler exDb1 2 (some 20) 9).1
    (Relation.ReflTransGen.single (AppStep.markRead exDb1 2 (some 20) 9))
    20 exMsgHello (by decide)

/-- Claim C1, as the code behaves: from the empty two-user store, an
interleaving of two concurrent getOrCreateConversation calls for the pair
of users 1 and 2 — both findOne steps first, then both create steps — is a
valid run of the handler code and ends with BOTH callers finished and TWO
stored conversations whose participant set is the pair.  The startup code
drops the unique participants index and the schema index is non-unique, so
the create step cannot fail with the duplicate-key error 11000 the catch
branch waits for, and the loser never re-queries. -/
theorem C1_goc_race_two_conversations :
    ∃ s : GocSystem,
      Relation.ReflTransGen (GocStep (jsSort [1, 2]) 0)
        ⟨exDb0, .start, .start⟩ s ∧
      (∃ a b : Conversation, s.caller1 = .done a ∧ s.caller2 = .done b) ∧
      countPairConvs s.db [1, 2] = 2 := by
  have e1 : gocFindStep exDb0 (jsSort [1, 2]) = GocPhase.willInsert := by decide
  have h1 : GocStep (jsSort [1, 2]) 0 ⟨exDb0, .start, .start⟩
      ⟨exDb0, .willInsert, .start⟩ := by
    have h := @GocStep.find1 (jsSort [1, 2]) 0 ⟨exDb0, .start, .start⟩ rfl
    rw [e1] at h
    exact h
  have h2 : GocStep (jsSort [1, 2]) 0 ⟨exDb0, .willInsert, .start⟩
      ⟨exDb0, .willInsert, .willInsert⟩ := by
    have h := @GocStep.find2 (jsSort [1, 2]) 0 ⟨exDb0, .willInsert, .start⟩ rfl
    rw [e1] at h
    exact h
  have h3 : GocStep (jsSort [1, 2]) 0 ⟨exDb0, .willInsert, .willInsert⟩
      ⟨(gocInsert exDb0 (jsSort [1, 2]) 0).2,
       .done (gocInsert exDb0 (jsSort [1, 2]) 0).1, .willInsert⟩ :=
    GocStep.insert1 ⟨exDb0, .willInsert, .willInsert⟩ rfl
  have h4 : GocStep (jsSort [1, 2]) 0
      ⟨(gocInsert exDb0 (jsSort [1, 2]) 0).2,
       .done (gocInsert exDb0 (jsSort [1, 2]) 0).1, .willInsert⟩
      ⟨(gocInsert (gocInsert exDb0 (jsSort [1, 2]) 0).2 (jsSort [1, 2]) 0).2,
       .done (gocInsert exDb0 (jsSort [1, 2]) 0).1,
       .done (gocInsert (gocInsert exDb0 (jsSort [1, 2]) 0).2 (jsSort [1, 2]) 0).1⟩ :=
    GocStep.insert2 ⟨(gocInsert exDb0 (jsSort [1, 2]) 0).2,
      .done (gocInsert exDb0 (jsSort [1, 2]) 0).1, .willInsert⟩ rfl
  refine ⟨⟨(gocInsert (gocInsert exDb0 (jsSort [1, 2]) 0).2 (jsSort [1, 2]) 0).2,
      .done (gocInsert exDb0 (jsSort [1, 2]) 0).1,
      .done (gocInsert (gocInsert exDb0 (jsSort [1, 2]) 0).2 (jsSort [1, 2]) 0).1⟩,
    ?_, ⟨_, _, rfl, rfl⟩, by decide⟩
  exact Relation.ReflTransGen.head h1 (Relation.ReflTransGen.head h2
    (Relation.ReflTransGen.head h3 (Relation.ReflTransGen.single h4)))
